import Mathlib

/-!
Shallow embedding of the GravityNotes Discord relay bot
(src/discord-bot/bot.py).

The bot watches two configured channels.  Messages in the notes channel
are forwarded to an external CLI as `add <content>`; messages in the
command channel are forwarded as `<content>` with an empty payload.  On
success the source message is deleted.  At startup the full backlog of
the notes channel is replayed through the same pipeline.

External collaborators are modelled as oracles:
  * `ExecEnv`   — whether the CLI binary exists and, per invocation, how
    the subprocess behaves (duration, exit code, streams, or an
    unexpected exception);
  * `Nat → DeleteResult` — the outcome of each delete call, keyed by
    message id;
  * `FetchResult` — the history fetch either yields the backlog list or
    raises a permission error.

Observable behaviour is collected as a list of `Effect`s (executor
invocations, delete attempts, replies sent), so that claims about which
calls are made, and in which order, can be stated precisely.
-/

/-- An inbound chat message, as consumed by bot.py: whether its author is
the bot itself (`message.author == bot.user`), its text content, its
channel id, and its id (used to key delete attempts). -/
structure Message where
  id : Nat
  fromBot : Bool
  content : String
  channelId : Nat
deriving DecidableEq

/-- Process-wide configuration from bot.py lines 34-37.  A missing
DISCORD_TOKEN is the empty string (Python falsiness); the channel ids
default to 0 when unset. -/
structure Config where
  discordToken : String
  notesChannelId : Nat
  commandChannelId : Nat
  notesCliPath : String
deriving DecidableEq

/-- Module-level startup checks, bot.py lines 39-49: the process exits
fatally unless the token is non-empty and both channel ids are non-zero.
No check of the CLI path is performed here. -/
def startupOk (cfg : Config) : Bool :=
  !cfg.discordToken.isEmpty && cfg.notesChannelId != 0 && cfg.commandChannelId != 0

/-- Behaviour of one subprocess invocation: either the child terminates
after `duration` time units with an exit code and captured streams, or
the invocation machinery raises an unexpected exception. -/
inductive SubprocResult where
  | completes (duration : Nat) (exitCode : Int) (stdout : String) (stderr : String)
  | raises
deriving DecidableEq

/-- Environment for the Command Executor: whether the resolved CLI path
exists, and the subprocess behaviour for each (verb, payload) call. -/
structure ExecEnv where
  cliExists : Bool
  spawn : String → String → SubprocResult

/-- The timeout passed to subprocess.run in bot.py line 84. -/
def cliTimeoutSeconds : Nat := 30

/-- bot.py lines 59-101, `execute_command_in_CLI`: returns False when the
CLI path does not exist; otherwise runs the CLI with the verb and payload
under a 30-unit timeout.  Exit code 0 within the timeout is True; a
non-zero exit, a timeout (subprocess raising TimeoutExpired when the
child outlives 30 units), or any unexpected exception is False.  The
Python function catches every exception, so it is total. -/
def execute_command_in_CLI (env : ExecEnv) (cmd : String) (content : String) : Bool :=
  if !env.cliExists then
    false
  else
    match env.spawn cmd content with
    | SubprocResult.completes duration exitCode _ _ =>
        if duration ≤ cliTimeoutSeconds then exitCode == 0 else false
    | SubprocResult.raises => false

/-- Observable side effects of the routing pipeline. -/
inductive Effect where
  | execCall (verb : String) (payload : String)
  | deleteAttempt (msgId : Nat)
  | send (text : String)
  | sendStatus (channelId : Nat) (cliPath : String)
deriving DecidableEq

/-- The emptiness guard used at bot.py lines 119 and 195, Python
`not message.content.strip()`: true exactly when the content consists
only of whitespace characters (in particular when it is empty). -/
def isBlank (s : String) : Bool := s.data.all Char.isWhitespace

/-- bot.py lines 103-133, `process_note_message`: skip (False) when the
author is the bot itself, then when the trimmed content is empty;
otherwise call the executor with verb "add" and the message content as
payload, returning its success.  The trace records the executor call. -/
def process_note_message (env : ExecEnv) (m : Message) : Bool × List Effect :=
  if m.fromBot then (false, [])
  else if isBlank m.content then (false, [])
  else (execute_command_in_CLI env "add" m.content, [Effect.execCall "add" m.content])

/-- bot.py lines 189-203, `handle_command`: same bot-author and
empty-content guards, then the executor is called with the full message
text as the verb and an empty payload. -/
def handle_command (env : ExecEnv) (m : Message) : Bool × List Effect :=
  if m.fromBot then (false, [])
  else if isBlank m.content then (false, [])
  else (execute_command_in_CLI env m.content "", [Effect.execCall m.content ""])

/-- bot.py lines 247-257: the shared tail of `on_message` that attempts
deletion of the source message exactly when `should_delete` is true.
Failures of the delete call itself are caught and logged there, so only
the attempt is observable. -/
def deleteBlockLive (shouldDelete : Bool) (m : Message) : List Effect :=
  if shouldDelete then [Effect.deleteAttempt m.id] else []

/-- bot.py lines 222-257, `on_message` (the Live Router): dispatch on the
channel id — notes channel goes through `process_note_message`, command
channel through `handle_command`, any other channel returns immediately —
then delete the source message when the handler returned True.  Note the
body never dispatches the registered chat commands (no process_commands
call). -/
def on_message (cfg : Config) (env : ExecEnv) (m : Message) : List Effect :=
  if m.channelId = cfg.notesChannelId then
    (process_note_message env m).2 ++ deleteBlockLive (process_note_message env m).1 m
  else if m.channelId = cfg.commandChannelId then
    (handle_command env m).2 ++ deleteBlockLive (handle_command env m).1 m
  else []

/-- Outcome of one delete call in the replay loop, matching the except
clauses of bot.py lines 166-175: success, discord.Forbidden,
discord.NotFound, or any other exception. -/
inductive DeleteResult where
  | ok
  | forbidden
  | notFound
  | otherError
deriving DecidableEq

/-- The two counters logged at the end of the replay
(bot.py lines 156-157 and 182). -/
structure SyncSummary where
  processed : Nat
  deleted : Nat
deriving DecidableEq

/-- Result of fetching the channel history (bot.py lines 146-148): either
the full backlog, oldest first, or discord.Forbidden when the bot lacks
permission to read history (caught at line 184). -/
inductive FetchResult where
  | forbidden
  | ok (msgs : List Message)

/-- bot.py lines 159-180, the replay for-loop: for each message in order,
run `process_note_message`; when it returns True, attempt the delete
(incrementing `deleted` only when the delete call succeeds — the three
except clauses swallow its failures) and increment `processed`
afterwards in every case.  A message whose handler returned False leaves
both counters untouched.  The loop never aborts on a per-message
failure. -/
def sync_loop (env : ExecEnv) (dEnv : Nat → DeleteResult) :
    List Message → SyncSummary → SyncSummary × List Effect
  | [], s => (s, [])
  | m :: rest, s =>
    let r := process_note_message env m
    if r.1 then
      let s1 := if dEnv m.id = DeleteResult.ok then { s with deleted := s.deleted + 1 } else s
      let out := sync_loop env dEnv rest { s1 with processed := s1.processed + 1 }
      (out.1, r.2 ++ Effect.deleteAttempt m.id :: out.2)
    else
      let out := sync_loop env dEnv rest s
      (out.1, r.2 ++ out.2)

/-- bot.py lines 135-187, `sync_channel_messages` (History Replay): on a
Forbidden history fetch, a single error is logged and the function
returns with nothing processed; on an empty backlog it returns
immediately; otherwise it runs the replay loop over the whole backlog
starting from zero counters. -/
def sync_channel_messages (env : ExecEnv) (dEnv : Nat → DeleteResult) :
    FetchResult → SyncSummary × List Effect
  | FetchResult.forbidden => ({ processed := 0, deleted := 0 }, [])
  | FetchResult.ok msgs =>
    if msgs.isEmpty then ({ processed := 0, deleted := 0 }, [])
    else sync_loop env dEnv msgs { processed := 0, deleted := 0 }

/-- bot.py lines 264-267, the registered ping chat command: replies with
a fixed acknowledgement. -/
def ping_command : List Effect := [Effect.send "Pong! Bot is running."]

/-- bot.py lines 269-285, the registered status chat command: refuses
outside the command channel, otherwise replies with a status embed
showing the monitored channel and the CLI path. -/
def status_command (cfg : Config) (originChannelId : Nat) : List Effect :=
  if originChannelId ≠ cfg.commandChannelId then
    [Effect.send "This command only works in the monitored channel."]
  else
    [Effect.sendStatus cfg.commandChannelId cfg.notesCliPath]

/-- The combined guard of the two handlers: a message is actionable when
it is not from the bot and its trimmed content is non-empty. -/
def actionable (m : Message) : Bool := !m.fromBot && !(isBlank m.content)

/-- Recognises executor-invocation effects. -/
def isExecEff : Effect → Bool
  | Effect.execCall _ _ => true
  | _ => false

/-- Recognises delete-attempt effects. -/
def isDeleteEff : Effect → Bool
  | Effect.deleteAttempt _ => true
  | _ => false

/-- The effects one replay iteration produces for a message. -/
def msgTrace (env : ExecEnv) (m : Message) : List Effect :=
  (process_note_message env m).2 ++
    (if (process_note_message env m).1 then [Effect.deleteAttempt m.id] else [])

/-- The first component of `process_note_message`: whether the message
was executed successfully (and should therefore be deleted). -/
def noteSuccess (env : ExecEnv) (m : Message) : Bool := (process_note_message env m).1

/-- Whether the delete call for message `m` completes without raising. -/
def deleteOkAt (dEnv : Nat → DeleteResult) (m : Message) : Bool :=
  decide (dEnv m.id = DeleteResult.ok)

/-- Executor environment in which every invocation exits 0 instantly. -/
def envOk : ExecEnv :=
  { cliExists := true, spawn := fun _ _ => SubprocResult.completes 0 0 "" "" }

/-- Executor environment in which every invocation exits 1. -/
def envFail : ExecEnv :=
  { cliExists := true, spawn := fun _ _ => SubprocResult.completes 1 1 "" "err" }

/-- Executor environment in which the CLI binary is missing. -/
def envMissingCli : ExecEnv :=
  { cliExists := false, spawn := fun _ _ => SubprocResult.raises }

/-- A concrete configuration: token present, notes channel 1, command
channel 2. -/
def cfgDemo : Config :=
  { discordToken := "token", notesChannelId := 1, commandChannelId := 2
    notesCliPath := "../notes" }

/-- A user message in the notes channel. -/
def mNote : Message := { id := 0, fromBot := false, content := "note", channelId := 1 }

/-- A user message invoking the registered ping command, sent in the
command channel. -/
def mPing : Message := { id := 7, fromBot := false, content := "!ping", channelId := 2 }

/-- A message authored by the bot itself. -/
def mBot : Message := { id := 3, fromBot := true, content := "hi", channelId := 1 }

/-- A whitespace-only user message. -/
def mBlank : Message := { id := 4, fromBot := false, content := "   ", channelId := 1 }

/-- A user message in a channel that is neither configured channel. -/
def mOther : Message := { id := 9, fromBot := false, content := "x", channelId := 5 }

/-- Delete oracle in which every delete call succeeds. -/
def dAllOk : Nat → DeleteResult := fun _ => DeleteResult.ok

/-- Delete oracle in which every delete call raises Forbidden. -/
def dAllForbidden : Nat → DeleteResult := fun _ => DeleteResult.forbidden

lemma process_note_message_eq (env : ExecEnv) (m : Message) :
    process_note_message env m =
      if actionable m then
        (execute_command_in_CLI env "add" m.content, [Effect.execCall "add" m.content])
      else (false, []) := by
  unfold process_note_message actionable
  cases hb : m.fromBot <;> cases he : isBlank m.content <;> simp [hb, he]

lemma handle_command_eq (env : ExecEnv) (m : Message) :
    handle_command env m =
      if actionable m then
        (execute_command_in_CLI env m.content "", [Effect.execCall m.content ""])
      else (false, []) := by
  unfold handle_command actionable
  cases hb : m.fromBot <;> cases he : isBlank m.content <;> simp [hb, he]

lemma noteSuccess_eq (env : ExecEnv) (m : Message) :
    noteSuccess env m = (actionable m && execute_command_in_CLI env "add" m.content) := by
  unfold noteSuccess
  rw [process_note_message_eq]
  by_cases h : actionable m = true <;> simp [h]

lemma sync_loop_processed (env : ExecEnv) (dEnv : Nat → DeleteResult)
    (msgs : List Message) (s : SyncSummary) :
    (sync_loop env dEnv msgs s).1.processed = s.processed + msgs.countP (noteSuccess env) := by
  induction msgs generalizing s with
  | nil => simp [sync_loop]
  | cons m rest ih =>
    simp only [sync_loop, List.countP_cons, noteSuccess]
    by_cases h : (process_note_message env m).1 = true
    · simp only [h, if_true]
      split <;> · rw [ih]; simp; omega
    · have h2 : (process_note_message env m).1 = false := by simpa using h
      simp [h2, ih]

lemma sync_loop_deleted (env : ExecEnv) (dEnv : Nat → DeleteResult)
    (msgs : List Message) (s : SyncSummary) :
    (sync_loop env dEnv msgs s).1.deleted =
      s.deleted + msgs.countP (fun m => noteSuccess env m && deleteOkAt dEnv m) := by
  induction msgs generalizing s with
  | nil => simp [sync_loop]
  | cons m rest ih =>
    simp only [sync_loop, List.countP_cons]
    by_cases h : (process_note_message env m).1 = true
    · simp only [h, if_true]
      by_cases hd : dEnv m.id = DeleteResult.ok
      · have hcnt : (noteSuccess env m && deleteOkAt dEnv m) = true := by
          simp [noteSuccess, deleteOkAt, h, hd]
        simp only [hd, if_true]
        rw [ih]
        simp [hcnt]
        omega
      · have hcnt : (noteSuccess env m && deleteOkAt dEnv m) = false := by
          simp [noteSuccess, deleteOkAt, h, hd]
        simp only [hd, if_false]
        rw [ih]
        simp [hcnt]
    · have h2 : (process_note_message env m).1 = false := by simpa using h
      have hcnt : (noteSuccess env m && deleteOkAt dEnv m) = false := by
        simp [noteSuccess, deleteOkAt, h2]
      simp [h2, ih, hcnt]

lemma sync_loop_trace (env : ExecEnv) (dEnv : Nat → DeleteResult)
    (msgs : List Message) (s : SyncSummary) :
    (sync_loop env dEnv msgs s).2 = msgs.flatMap (msgTrace env) := by
  induction msgs generalizing s with
  | nil => simp [sync_loop]
  | cons m rest ih =>
    simp only [sync_loop, List.flatMap_cons, msgTrace]
    by_cases h : (process_note_message env m).1 = true
    · simp [h, ih]
    · have h2 : (process_note_message env m).1 = false := by simpa using h
      simp [h2, ih]

lemma sync_ok_eq (env : ExecEnv) (dEnv : Nat → DeleteResult) (msgs : List Message) :
    sync_channel_messages env dEnv (FetchResult.ok msgs) =
      sync_loop env dEnv msgs { processed := 0, deleted := 0 } := by
  cases msgs <;> simp [sync_channel_messages, sync_loop]

lemma msgTrace_filter_exec (env : ExecEnv) (m : Message) :
    (msgTrace env m).filter isExecEff =
      if actionable m then [Effect.execCall "add" m.content] else [] := by
  unfold msgTrace
  rw [process_note_message_eq]
  by_cases h : actionable m = true
  · simp only [h, if_true]
    split <;> simp [isExecEff]
  · simp [h]

lemma msgTrace_filter_delete (env : ExecEnv) (m : Message) :
    (msgTrace env m).filter isDeleteEff =
      if noteSuccess env m then [Effect.deleteAttempt m.id] else [] := by
  unfold msgTrace noteSuccess
  rw [process_note_message_eq]
  by_cases h : actionable m = true
  · simp only [h, if_true]
    split <;> simp_all [isDeleteEff]
  · simp [h]

lemma filter_flatMap_eq {α β : Type} (l : List α) (f : α → List β) (p : β → Bool) :
    (l.flatMap f).filter p = l.flatMap (fun a => (f a).filter p) := by
  induction l with
  | nil => simp
  | cons a t ih => simp [List.flatMap_cons, List.filter_append, ih]

lemma flatMap_if_singleton {α β : Type} (l : List α) (q : α → Bool) (g : α → β) :
    (l.flatMap fun a => if q a then [g a] else []) = (l.filter q).map g := by
  induction l with
  | nil => simp
  | cons a t ih =>
    by_cases h : q a = true <;> simp [List.flatMap_cons, List.filter_cons, h, ih]

lemma sync_loop_exec_calls (env : ExecEnv) (dEnv : Nat → DeleteResult)
    (msgs : List Message) (s : SyncSummary) :
    ((sync_loop env dEnv msgs s).2).filter isExecEff =
      (msgs.filter actionable).map (fun m => Effect.execCall "add" m.content) := by
  rw [sync_loop_trace, filter_flatMap_eq]
  simp only [msgTrace_filter_exec]
  exact flatMap_if_singleton msgs actionable (fun m => Effect.execCall "add" m.content)

lemma sync_loop_delete_attempts (env : ExecEnv) (dEnv : Nat → DeleteResult)
    (msgs : List Message) (s : SyncSummary) :
    ((sync_loop env dEnv msgs s).2).filter isDeleteEff =
      (msgs.filter (noteSuccess env)).map (fun m => Effect.deleteAttempt m.id) := by
  rw [sync_loop_trace, filter_flatMap_eq]
  simp only [msgTrace_filter_delete]
  exact flatMap_if_singleton msgs (noteSuccess env) (fun m => Effect.deleteAttempt m.id)

lemma countP_and_lt_of_mem {α : Type} {p q : α → Bool} {l : List α} {a : α}
    (ha : a ∈ l) (hp : p a = true) (hq : q a = false) :
    l.countP (fun x => p x && q x) < l.countP p := by
  induction l with
  | nil => cases ha
  | cons b t ih =>
    rcases List.mem_cons.mp ha with rfl | hmem
    · have hle : t.countP (fun x => p x && q x) ≤ t.countP p :=
        List.countP_mono_left fun x _ hx => ((Bool.and_eq_true _ _).mp hx).1
      simp only [List.countP_cons, hp, hq]
      simp
      omega
    · have hlt := ih hmem
      have hbranch : (if (p b && q b) = true then 1 else 0) ≤ (if p b = true then 1 else 0) := by
        by_cases hb : p b = true <;> by_cases hqb : q b = true <;> simp [hb, hqb]
      simp only [List.countP_cons]
      omega

lemma on_message_of_ignored (cfg : Config) (env : ExecEnv) (m : Message)
    (h1 : process_note_message env m = (false, []))
    (h2 : handle_command env m = (false, [])) : on_message cfg env m = [] := by
  unfold on_message deleteBlockLive
  by_cases hn : m.channelId = cfg.notesChannelId
  · rw [if_pos hn]
    simp [h1]
  · rw [if_neg hn]
    by_cases hc : m.channelId = cfg.commandChannelId
    · rw [if_pos hc]
      simp [h2]
    · rw [if_neg hc]

/-- C1: a delete of the source message is attempted if and only if the
executor outcome for that message was Success — for the live router on
either configured channel, and for every message of the replay backlog.
Ignored messages (bot author, blank content) and failed executions never
produce a delete attempt. -/
theorem C1_delete_iff_success (cfg : Config) (env : ExecEnv) (dEnv : Nat → DeleteResult)
    (m : Message) (msgs : List Message) :
    (Effect.deleteAttempt m.id ∈ on_message cfg env m ↔
      ((m.channelId = cfg.notesChannelId ∧ actionable m = true ∧
          execute_command_in_CLI env "add" m.content = true) ∨
        (¬ m.channelId = cfg.notesChannelId ∧ m.channelId = cfg.commandChannelId ∧
          actionable m = true ∧ execute_command_in_CLI env m.content "" = true))) ∧
    ((sync_channel_messages env dEnv (FetchResult.ok msgs)).2.filter isDeleteEff =
      (msgs.filter fun x => actionable x && execute_command_in_CLI env "add" x.content).map
        fun x => Effect.deleteAttempt x.id) := by
  constructor
  · unfold on_message deleteBlockLive
    by_cases hn : m.channelId = cfg.notesChannelId
    · rw [if_pos hn, process_note_message_eq]
      by_cases ha : actionable m = true
      · rw [if_pos ha]
        by_cases hx : execute_command_in_CLI env "add" m.content = true
        · exact iff_of_true (by simp [hx]) (Or.inl ⟨hn, ha, hx⟩)
        · apply iff_of_false (by simp [hx])
          rintro (⟨_, _, h3⟩ | ⟨h1, _, _, _⟩)
          · exact hx h3
          · exact h1 hn
      · rw [if_neg ha]
        apply iff_of_false (by simp)
        rintro (⟨_, h2, _⟩ | ⟨_, _, h2, _⟩) <;> exact ha h2
    · rw [if_neg hn]
      by_cases hc : m.channelId = cfg.commandChannelId
      · rw [if_pos hc, handle_command_eq]
        by_cases ha : actionable m = true
        · rw [if_pos ha]
          by_cases hx : execute_command_in_CLI env m.content "" = true
          · exact iff_of_true (by simp [hx]) (Or.inr ⟨hn, hc, ha, hx⟩)
          · apply iff_of_false (by simp [hx])
            rintro (⟨h1, _, _⟩ | ⟨_, _, _, h4⟩)
            · exact hn h1
            · exact hx h4
        · rw [if_neg ha]
          apply iff_of_false (by simp)
          rintro (⟨_, h2, _⟩ | ⟨_, _, h2, _⟩) <;> exact ha h2
      · rw [if_neg hc]
        apply iff_of_false (by simp)
        rintro (⟨h1, _, _⟩ | ⟨_, h2, _, _⟩)
        · exact hn h1
        · exact hc h2
  · have hfun : (noteSuccess env) =
        fun x => actionable x && execute_command_in_CLI env "add" x.content :=
      funext fun x => noteSuccess_eq env x
    rw [sync_ok_eq, sync_loop_delete_attempts, hfun]

/-- C1 witness: in the all-success environment, a delete of the concrete
notes-channel message is attempted by the live router. -/
theorem C1_witness :
    Effect.deleteAttempt mNote.id ∈ on_message cfgDemo envOk mNote :=
  (C1_delete_iff_success cfgDemo envOk dAllOk mNote []).1.mpr
    (Or.inl ⟨rfl, by decide, by decide⟩)

/-- C2: a message authored by the bot itself, and a message whose content
is empty or whitespace-only, are both ignored: the two handlers return
False with an empty trace (no executor call), and the live router
produces no effect at all, so nothing is deleted.  The bot-author guard
is the first check in both handlers. -/
theorem C2_bot_and_blank_ignored (cfg : Config) (env : ExecEnv) (m : Message) :
    (m.fromBot = true →
      process_note_message env m = (false, []) ∧ handle_command env m = (false, []) ∧
        on_message cfg env m = []) ∧
    (isBlank m.content = true →
      process_note_message env m = (false, []) ∧ handle_command env m = (false, []) ∧
        on_message cfg env m = []) := by
  constructor
  · intro hb
    have h1 : process_note_message env m = (false, []) := by
      simp [process_note_message, hb]
    have h2 : handle_command env m = (false, []) := by
      simp [handle_command, hb]
    exact ⟨h1, h2, on_message_of_ignored cfg env m h1 h2⟩
  · intro hb
    have h1 : process_note_message env m = (false, []) := by
      unfold process_note_message
      cases hfb : m.fromBot <;> simp [hfb, hb]
    have h2 : handle_command env m = (false, []) := by
      unfold handle_command
      cases hfb : m.fromBot <;> simp [hfb, hb]
    exact ⟨h1, h2, on_message_of_ignored cfg env m h1 h2⟩

/-- C2 witness: the concrete bot-authored message is ignored by the
notes handler, and the whitespace-only message produces no live effect. -/
theorem C2_witness :
    process_note_message envOk mBot = (false, []) ∧ on_message cfgDemo envOk mBlank = [] :=
  ⟨((C2_bot_and_blank_ignored cfgDemo envOk mBot).1 rfl).1,
    ((C2_bot_and_blank_ignored cfgDemo envOk mBlank).2 (by decide)).2.2⟩

/-- C3: for a non-bot message with non-blank content, the notes channel
yields exactly one executor call with verb "add" and the content as
payload; the command channel yields exactly one executor call with the
full text as verb and an empty payload; a message from any other channel
produces no effect at all. -/
theorem C3_channel_routing (cfg : Config) (env : ExecEnv) (m : Message)
    (hbot : m.fromBot = false) (hblank : isBlank m.content = false) :
    (m.channelId = cfg.notesChannelId →
      (on_message cfg env m).filter isExecEff = [Effect.execCall "add" m.content]) ∧
    (¬ m.channelId = cfg.notesChannelId → m.channelId = cfg.commandChannelId →
      (on_message cfg env m).filter isExecEff = [Effect.execCall m.content ""]) ∧
    (¬ m.channelId = cfg.notesChannelId → ¬ m.channelId = cfg.commandChannelId →
      on_message cfg env m = []) := by
  have ha : actionable m = true := by simp [actionable, hbot, hblank]
  refine ⟨?_, ?_, ?_⟩
  · intro hn
    unfold on_message deleteBlockLive
    rw [process_note_message_eq]
    simp only [ha, if_true]
    rw [if_pos hn]
    split <;> simp [isExecEff]
  · intro hn hc
    unfold on_message deleteBlockLive
    rw [handle_command_eq]
    simp only [ha, if_true]
    rw [if_neg hn, if_pos hc]
    split <;> simp [isExecEff]
  · intro hn hc
    unfold on_message
    rw [if_neg hn, if_neg hc]

/-- C3 witness: concrete messages in the notes channel, the command
channel and an unrouted channel follow the three routes. -/
theorem C3_witness :
    (on_message cfgDemo envOk mNote).filter isExecEff = [Effect.execCall "add" "note"] ∧
    (on_message cfgDemo envOk mPing).filter isExecEff = [Effect.execCall "!ping" ""] ∧
    on_message cfgDemo envOk mOther = [] :=
  ⟨(C3_channel_routing cfgDemo envOk mNote rfl (by decide)).1 rfl,
    (C3_channel_routing cfgDemo envOk mPing rfl (by decide)).2.1 (by decide) rfl,
    (C3_channel_routing cfgDemo envOk mOther rfl (by decide)).2.2 (by decide) (by decide)⟩

/-- C4 counterexample: a backlog with one message whose execution
succeeds (K = 1) but whose delete call raises Forbidden ends with
processed = 1 and deleted = 0, so the summary does not satisfy
processed = deleted = K. -/
theorem C4_counterexample :
    [mNote].countP (noteSuccess envOk) = 1 ∧
    (sync_channel_messages envOk dAllForbidden (FetchResult.ok [mNote])).1.processed = 1 ∧
    (sync_channel_messages envOk dAllForbidden (FetchResult.ok [mNote])).1.deleted = 0 := by
  decide

/-- C4 (amended): replay over a fetched backlog of N messages with K
successful executions visits every message in backlog order (the
executor-call trace is exactly the in-order list of actionable
messages), never aborts on a single failure, and ends with
processed = K ≤ N; deleted = K additionally requires every delete call
for a successfully executed message to complete without error. -/
theorem C4_replay_summary (env : ExecEnv) (dEnv : Nat → DeleteResult) (msgs : List Message) :
    (sync_channel_messages env dEnv (FetchResult.ok msgs)).1.processed =
      msgs.countP (noteSuccess env) ∧
    msgs.countP (noteSuccess env) ≤ msgs.length ∧
    (sync_channel_messages env dEnv (FetchResult.ok msgs)).2.filter isExecEff =
      (msgs.filter actionable).map (fun m => Effect.execCall "add" m.content) ∧
    ((∀ m ∈ msgs, noteSuccess env m = true → dEnv m.id = DeleteResult.ok) →
      (sync_channel_messages env dEnv (FetchResult.ok msgs)).1.deleted =
        msgs.countP (noteSuccess env)) := by
  refine ⟨?_, List.countP_le_length _, ?_, ?_⟩
  · rw [sync_ok_eq, sync_loop_processed]
    simp
  · rw [sync_ok_eq]
    exact sync_loop_exec_calls env dEnv msgs _
  · intro hall
    rw [sync_ok_eq, sync_loop_deleted]
    simp only [Nat.zero_add]
    refine Nat.le_antisymm ?_ ?_
    · exact List.countP_mono_left fun x _ hx => ((Bool.and_eq_true _ _).mp hx).1
    · refine List.countP_mono_left fun x hmem hx => ?_
      exact (Bool.and_eq_true _ _).mpr ⟨hx, decide_eq_true (hall x hmem hx)⟩

/-- C4 witness: with every delete call succeeding, the deleted count
equals the number of successful executions. -/
theorem C4_witness :
    (sync_channel_messages envOk dAllOk (FetchResult.ok [mNote])).1.deleted =
      [mNote].countP (noteSuccess envOk) :=
  (C4_replay_summary envOk dAllOk [mNote]).2.2.2 (fun _ _ _ => rfl)

/-- C5: the executor returns Success exactly when the CLI binary exists
and the subprocess completes within the 30-unit timeout with exit code
0; a timeout, a non-zero exit code and an unexpected exception all
return Failure.  The function is Bool-valued and total, so no exception
ever propagates to the caller. -/
theorem C5_executor_success_iff (env : ExecEnv) (cmd : String) (content : String) :
    execute_command_in_CLI env cmd content = true ↔
      (env.cliExists = true ∧ ∃ duration exitCode stdoutText stderrText,
        env.spawn cmd content =
          SubprocResult.completes duration exitCode stdoutText stderrText ∧
        duration ≤ cliTimeoutSeconds ∧ exitCode = 0) := by
  unfold execute_command_in_CLI
  cases hcli : env.cliExists with
  | false => simp
  | true =>
    cases hs : env.spawn cmd content with
    | completes d c o e =>
      by_cases hd : d ≤ cliTimeoutSeconds
      · by_cases hc0 : c = 0
        · exact iff_of_true (by simp [hd, hc0]) ⟨rfl, d, c, o, e, rfl, hd, hc0⟩
        · apply iff_of_false (by simp [hd, hc0])
          rintro ⟨_, d2, c2, o2, e2, heq, hle, hzero⟩
          simp only [SubprocResult.completes.injEq] at heq
          obtain ⟨rfl, rfl, rfl, rfl⟩ := heq
          exact hc0 hzero
      · apply iff_of_false (by simp [hd])
        rintro ⟨_, d2, c2, o2, e2, heq, hle, hzero⟩
        simp only [SubprocResult.completes.injEq] at heq
        obtain ⟨rfl, rfl, rfl, rfl⟩ := heq
        exact hd hle
    | raises => simp

/-- C5 witness: the executor accepts a concrete invocation that exits 0
instantly. -/
theorem C5_witness : execute_command_in_CLI envOk "add" "note" = true :=
  (C5_executor_success_iff envOk "add" "note").mpr
    ⟨rfl, 0, 0, "", "", rfl, by decide, rfl⟩

/-- C6 counterexample: a configuration with token and both channel ids
present passes every module-level startup check even though the CLI
binary is missing; the missing CLI is then handled per message — the
live router still serves the event, the executor is invoked, returns
Failure, and the message is left in place.  No process-level fatal error
occurs before serving events. -/
theorem C6_counterexample :
    startupOk cfgDemo = true ∧
    execute_command_in_CLI envMissingCli "add" "note" = false ∧
    on_message cfgDemo envMissingCli mNote = [Effect.execCall "add" "note"] := by
  decide

/-- C6 (amended): the startup checks validate exactly the token and the
two channel identifiers — they are independent of the CLI path — and a
missing CLI makes each individual executor invocation return Failure
instead of stopping the process. -/
theorem C6_startup_checks (cfg : Config) (env : ExecEnv) (cmd : String) (content : String) :
    (startupOk cfg = true ↔
      (cfg.discordToken.isEmpty = false ∧ cfg.notesChannelId ≠ 0 ∧
        cfg.commandChannelId ≠ 0)) ∧
    (env.cliExists = false → execute_command_in_CLI env cmd content = false) := by
  constructor
  · unfold startupOk
    simp [Bool.and_eq_true, Bool.not_eq_true', bne_iff_ne, and_assoc]
  · intro h
    unfold execute_command_in_CLI
    simp [h]

/-- C6 witness: the amended theorem applied to the missing-CLI
environment. -/
theorem C6_witness : execute_command_in_CLI envMissingCli "add" "x" = false :=
  (C6_startup_checks cfgDemo envMissingCli "add" "x").2 rfl

/-- C7: when the history fetch raises Forbidden, the whole replay aborts
with a zero summary and an empty effect trace (no executor call, no
delete attempt) and the function still returns normally, so the process
keeps serving live events.  A per-message failure never aborts the
replay: over any successfully fetched backlog the executor-call trace
covers every actionable message, whatever the execution and deletion
outcomes. -/
theorem C7_forbidden_aborts_replay (env : ExecEnv) (dEnv : Nat → DeleteResult)
    (msgs : List Message) :
    sync_channel_messages env dEnv FetchResult.forbidden =
      ({ processed := 0, deleted := 0 }, []) ∧
    (sync_channel_messages env dEnv (FetchResult.ok msgs)).2.filter isExecEff =
      (msgs.filter actionable).map (fun m => Effect.execCall "add" m.content) :=
  ⟨rfl, by rw [sync_ok_eq]; exact sync_loop_exec_calls env dEnv msgs _⟩

/-- C8: replaying an empty backlog returns the zero summary immediately
with an empty effect trace — no executor call and no delete attempt. -/
theorem C8_empty_backlog (env : ExecEnv) (dEnv : Nat → DeleteResult) :
    sync_channel_messages env dEnv (FetchResult.ok []) =
      ({ processed := 0, deleted := 0 }, []) := rfl

/-- C9 (code bug): the registered ping command would reply with the
fixed acknowledgement and the registered status command refuses outside
the command channel, but the overridden `on_message` event handler in
bot.py never calls process_commands, so registered commands are never
dispatched: a user message "!ping" in the command channel is instead
forwarded verbatim to the notes CLI as a verb, and no reply effect is
produced. -/
theorem C9_ping_never_dispatched :
    ping_command = [Effect.send "Pong! Bot is running."] ∧
    status_command cfgDemo 1 =
      [Effect.send "This command only works in the monitored channel."] ∧
    on_message cfgDemo envFail mPing = [Effect.execCall "!ping" ""] := by
  refine ⟨rfl, by decide, by decide⟩

/-- C10: throughout the replay loop (after any prefix of the backlog)
the counters satisfy deleted ≤ processed ≤ N; processed counts exactly
the prefix messages whose execution succeeded, deleted counts exactly
those whose delete call also completed without error, and a failed
delete on a successfully executed message leaves the final deleted count
strictly below the processed count while the loop still runs to
completion. -/
theorem C10_counter_invariants (env : ExecEnv) (dEnv : Nat → DeleteResult)
    (msgs : List Message) (n : Nat) :
    (sync_loop env dEnv (msgs.take n) { processed := 0, deleted := 0 }).1.deleted ≤
      (sync_loop env dEnv (msgs.take n) { processed := 0, deleted := 0 }).1.processed ∧
    (sync_loop env dEnv (msgs.take n) { processed := 0, deleted := 0 }).1.processed ≤
      msgs.length ∧
    (sync_loop env dEnv (msgs.take n) { processed := 0, deleted := 0 }).1.processed =
      (msgs.take n).countP (noteSuccess env) ∧
    (sync_loop env dEnv (msgs.take n) { processed := 0, deleted := 0 }).1.deleted =
      (msgs.take n).countP (fun m => noteSuccess env m && deleteOkAt dEnv m) ∧
    (∀ m ∈ msgs, noteSuccess env m = true → dEnv m.id ≠ DeleteResult.ok →
      (sync_channel_messages env dEnv (FetchResult.ok msgs)).1.deleted <
        (sync_channel_messages env dEnv (FetchResult.ok msgs)).1.processed) := by
  have hp := sync_loop_processed env dEnv (msgs.take n) { processed := 0, deleted := 0 }
  have hd := sync_loop_deleted env dEnv (msgs.take n) { processed := 0, deleted := 0 }
  simp only [Nat.zero_add] at hp hd
  refine ⟨?_, ?_, hp, hd, ?_⟩
  · rw [hp, hd]
    exact List.countP_mono_left fun x _ hx => ((Bool.and_eq_true _ _).mp hx).1
  · rw [hp]
    refine le_trans (List.countP_le_length _) ?_
    simp [List.length_take]
  · intro m hm hsucc hdel
    rw [sync_ok_eq, sync_loop_processed, sync_loop_deleted]
    simp only [Nat.zero_add]
    exact countP_and_lt_of_mem hm hsucc (by simp [deleteOkAt, hdel])

/-- C10 witness: one successfully executed message whose delete raises
Forbidden gives a final deleted count strictly below the processed
count. -/
theorem C10_witness :
    (sync_channel_messages envOk dAllForbidden (FetchResult.ok [mNote])).1.deleted <
      (sync_channel_messages envOk dAllForbidden (FetchResult.ok [mNote])).1.processed :=
  (C10_counter_invariants envOk dAllForbidden [mNote] 1).2.2.2.2 mNote
    (List.mem_singleton.mpr rfl) (by decide) (by decide)
